import Mathlib

/-!
Verification of the otslib core fetch/pace pipeline
(`src/otslib/core/__base__.py` and `src/otslib/common/utils.py`).

Shallow embedding conventions:
* byte strings are `List ℕ`;
* the network-backed `MediaStream.read` is an oracle `stream : ℕ → ℕ → ByteStr`
  giving the bytes returned by the i-th read when `n` bytes are requested
  (reads may be short; `[]` models a zero-length read);
* the mutagen OggVorbis duration probe is an oracle
  `probe : ByteStr → Option ℚ` (`none` models `OggVorbisHeaderError`,
  `some L` models a successful parse with `info.length = L`);
* the shared cancellation flag read by the worker is an oracle
  `halt : ℕ → Bool`, the value observed at the i-th loop-condition check;
* wall-clock `time.time()` is an oracle `clock : ℕ → ℚ`, indexed by the
  number of `time.time()` calls made so far;
* durations and timestamps are `ℚ` (exact arithmetic on the float values).
-/

abbrev ByteStr := List ℕ

/-- The mutable local state of `fetch_thread_worker`
(`__base__.py` lines 358-364): `size_fetched`, `pending_data`, `full_data`,
`length_till_last_segment` and the (mutated) `chunk` argument. -/
structure WorkerState where
  sizeFetched : ℕ
  pendingData : ByteStr
  fullData : ByteStr
  lengthTillLastSegment : ℚ
  chunk : ℕ
deriving Repr, DecidableEq

/-- How a `fetch_thread_worker` run ends: normal return (`ok`, covering the
full-size exit, the tolerance `break` and the halt-flag exit) or raising
`StreamReadException` (`streamReadError`). -/
inductive WOutcome
  | ok
  | streamReadError
deriving Repr, DecidableEq

/-- Observable result of one `fetch_thread_worker` run: the segments appended
to `media_container` in order, the chunk sizes requested from the stream by
successive `read` calls, the way the run ended, and the final local state. -/
structure WorkerRun where
  container : List (ℚ × ByteStr)
  requests : List ℕ
  outcome : WOutcome
  final : WorkerState
deriving Repr, DecidableEq

/-- The adaptive chunk shrink shared by `get_media` (line 273-274) and
`fetch_thread_worker` (lines 370-371): `if (total - fetched) < chunk:
chunk = total - fetched`. -/
def shrink (totalSize fetched chunk : ℕ) : ℕ :=
  if totalSize - fetched < chunk then totalSize - fetched else chunk

/-- The `while` loop of `fetch_thread_worker` (`__base__.py` lines 365-389),
plus the final sentinel append of line 389.  Iteration `i` checks
`size_fetched < total_size and not bool(halt_marker)`, reads
`stream().read(chunk)`, appends to `pending_data`, breaks when a zero-length
read arrives while `chunk <= skip_at_end`, shrinks `chunk` to
`total_size - size_fetched` (note: `size_fetched` not yet updated with this
read), appends the sentinel and raises when a zero-length read arrives while
the shrunk `chunk > skip_at_end`, then updates `size_fetched` and `full_data`,
probes the accumulated `full_data` and on success publishes
`(length_till_now - length_till_last_segment, pending_data)` and clears
`pending_data`. -/
def fetchLoop (stream : ℕ → ℕ → ByteStr) (probe : ByteStr → Option ℚ)
    (halt : ℕ → Bool) (totalSize skipAtEnd : ℕ) (i : ℕ) (st : WorkerState) :
    WorkerRun :=
  if hg : st.sizeFetched < totalSize ∧ halt i = false then
    if hb : stream i st.chunk = [] ∧ st.chunk ≤ skipAtEnd then
      -- `break` out of the loop, then line 389 appends the sentinel
      { container := [(0, [])], requests := [st.chunk], outcome := .ok,
        final := { st with pendingData := st.pendingData ++ stream i st.chunk } }
    else
      if hr : stream i st.chunk = [] ∧
          skipAtEnd < shrink totalSize st.sizeFetched st.chunk then
        -- sentinel appended at line 373, then StreamReadException raised
        { container := [(0, [])], requests := [st.chunk],
          outcome := .streamReadError,
          final := { st with pendingData := st.pendingData ++ stream i st.chunk,
                             chunk := shrink totalSize st.sizeFetched st.chunk } }
      else
        match probe (st.fullData ++ stream i st.chunk) with
        | some L =>
          let rest := fetchLoop stream probe halt totalSize skipAtEnd (i + 1)
            { sizeFetched := st.sizeFetched + (stream i st.chunk).length,
              pendingData := [],
              fullData := st.fullData ++ stream i st.chunk,
              lengthTillLastSegment := L,
              chunk := shrink totalSize st.sizeFetched st.chunk }
          { container := (L - st.lengthTillLastSegment,
                          st.pendingData ++ stream i st.chunk) :: rest.container,
            requests := st.chunk :: rest.requests,
            outcome := rest.outcome, final := rest.final }
        | none =>
          let rest := fetchLoop stream probe halt totalSize skipAtEnd (i + 1)
            { sizeFetched := st.sizeFetched + (stream i st.chunk).length,
              pendingData := st.pendingData ++ stream i st.chunk,
              fullData := st.fullData ++ stream i st.chunk,
              lengthTillLastSegment := st.lengthTillLastSegment,
              chunk := shrink totalSize st.sizeFetched st.chunk }
          { container := rest.container,
            requests := st.chunk :: rest.requests,
            outcome := rest.outcome, final := rest.final }
  else
    -- loop condition false: fall through to the sentinel append of line 389
    { container := [(0, [])], requests := [], outcome := .ok, final := st }
termination_by (totalSize - st.sizeFetched, st.chunk)
decreasing_by
  all_goals
    rcases Decidable.em (stream i st.chunk = []) with hd | hd
    · -- zero-length read absorbed without break or raise: chunk shrinks
      -- below the tolerance while size_fetched is unchanged
      have h2 : ¬ st.chunk ≤ skipAtEnd := fun hc => hb ⟨hd, hc⟩
      have h3 : shrink totalSize st.sizeFetched st.chunk ≤ skipAtEnd :=
        Nat.le_of_not_lt (fun hc => hr ⟨hd, hc⟩)
      simp only [hd, List.length_nil, Nat.add_zero]
      exact Prod.Lex.right _ (by omega)
    · -- a non-empty read strictly increases size_fetched below totalSize
      have h1 : (stream i st.chunk).length ≠ 0 :=
        fun hc => hd (List.eq_nil_of_length_eq_zero hc)
      have h4 := hg.1
      exact Prod.Lex.left _ _ (by omega)

/-- `fetch_thread_worker` (`__base__.py` lines 347-389): runs the fetch loop
from the initial state (`size_fetched = 0`, empty buffers,
`length_till_last_segment = 0.0`, caller-supplied `chunk`). -/
def fetch_thread_worker (stream : ℕ → ℕ → ByteStr) (probe : ByteStr → Option ℚ)
    (halt : ℕ → Bool) (totalSize chunk skipAtEnd : ℕ) : WorkerRun :=
  fetchLoop stream probe halt totalSize skipAtEnd 0
    { sizeFetched := 0, pendingData := [], fullData := [],
      lengthTillLastSegment := 0, chunk := chunk }

/-- Invariant relating the worker-state buffers to the probe:
when `pending_data` is empty the last probe of `full_data` succeeded and
set `length_till_last_segment` (or nothing has been read); when
`pending_data` is non-empty the last probe of `full_data` failed. -/
def WorkerInv (probe : ByteStr → Option ℚ) (s : WorkerState) : Prop :=
  (s.pendingData = [] →
    s.fullData = [] ∨ probe s.fullData = some s.lengthTillLastSegment) ∧
  (s.pendingData ≠ [] → probe s.fullData = none)

/-! ### The Bulk Fetcher: `AbstractMediaItem.get_media`
(`__base__.py` lines 250-288).

The shared mutable `stop_check_list` is modeled by an oracle
`stops : ℕ → List String` giving the list contents at the j-th membership
observation (each loop-condition check consumes one index; the post-loop
check of line 282 consumes the next one, so external threads may mutate the
list between observations).  `pg_notify` calls are recorded as events;
`reset_stream` calls are recorded in `resetCalled`. -/

/-- How a `get_media` call ends: returning the bytes (`ok`), raising
`StreamReadException` (`streamReadErr`), or raising
`MediaFetchInterruptedException` (`interrupted`). -/
inductive GOutcome
  | ok
  | streamReadErr
  | interrupted
deriving Repr, DecidableEq

/-- Observable result of a `get_media` call: outcome, the accumulated
`raw_media`, progress-callback events, whether `reset_stream` was called on
the exit path, the stop list observed by the post-loop check of line 282
(`[]` on the raise path, which never performs that check), and the stop
list left behind after the `pop` of line 283. -/
structure GetMediaRun where
  outcome : GOutcome
  raw : ByteStr
  pgEvents : List (ℕ × ℕ × String)
  resetCalled : Bool
  stopAtExit : List String
  finalStop : List String
deriving Repr, DecidableEq

/-- Lines 282-288 of `get_media`: after the loop, if the media id is in the
stop list, pop its first occurrence, notify "Cancelled", reset the stream
and raise `MediaFetchInterruptedException`; otherwise reset the stream and
return `raw_media`. -/
def getMediaExit (mid : String) (ls : List String) (raw : ByteStr)
    (pg : List (ℕ × ℕ × String)) : GetMediaRun :=
  if mid ∈ ls then
    { outcome := .interrupted, raw := raw,
      pgEvents := pg ++ [(0, 1, "Cancelled")], resetCalled := true,
      stopAtExit := ls, finalStop := ls.erase mid }
  else
    { outcome := .ok, raw := raw, pgEvents := pg, resetCalled := true,
      stopAtExit := ls, finalStop := ls }

/-- The `while` loop of `get_media` (`__base__.py` lines 265-281) plus the
post-loop code (lines 282-288).  Each iteration reads `chunk_size` bytes,
appends them to `raw_media` (a zero-length read appends nothing), notifies
progress, breaks when a zero-length read arrives while
`chunk_size <= skip_at_end_bytes`, shrinks `chunk_size` to
`total_size - len(raw_media)` (here `raw_media` IS already updated, unlike
in `fetch_thread_worker`), and raises `StreamReadException` (after a
"Read Error" notification and `reset_stream`) when a zero-length read
arrives while the shrunk `chunk_size > skip_at_end_bytes`. -/
def getMediaLoop (streamG : ℕ → ℕ → ByteStr) (stops : ℕ → List String)
    (mid : String) (totalSize skipAtEnd : ℕ) (i chunk : ℕ)
    (raw : ByteStr) (pg : List (ℕ × ℕ × String)) : GetMediaRun :=
  if hg : raw.length < totalSize ∧ mid ∉ stops i then
    if hb : streamG i chunk = [] ∧ chunk ≤ skipAtEnd then
      getMediaExit mid (stops (i + 1)) (raw ++ streamG i chunk)
        (pg ++ [((raw ++ streamG i chunk).length, totalSize, "Downloading")])
    else
      if hr : streamG i chunk = [] ∧
          skipAtEnd < shrink totalSize (raw ++ streamG i chunk).length chunk
        then
        { outcome := .streamReadErr, raw := raw ++ streamG i chunk,
          pgEvents :=
            (pg ++ [((raw ++ streamG i chunk).length, totalSize,
              "Downloading")]) ++ [(0, 1, "Read Error")],
          resetCalled := true, stopAtExit := [],
          finalStop := stops (i + 1) }
      else
        getMediaLoop streamG stops mid totalSize skipAtEnd (i + 1)
          (shrink totalSize (raw ++ streamG i chunk).length chunk)
          (raw ++ streamG i chunk)
          (pg ++ [((raw ++ streamG i chunk).length, totalSize, "Downloading")])
  else
    getMediaExit mid (stops (i + 1)) raw pg
termination_by (totalSize - raw.length, chunk)
decreasing_by
  rcases Decidable.em (streamG i chunk = []) with hd | hd
  · have h2 : ¬ chunk ≤ skipAtEnd := fun hc => hb ⟨hd, hc⟩
    have h3 : shrink totalSize (raw ++ streamG i chunk).length chunk
        ≤ skipAtEnd := Nat.le_of_not_lt (fun hc => hr ⟨hd, hc⟩)
    simp only [hd, List.append_nil]
    simp only [hd, List.append_nil] at h3
    exact Prod.Lex.right _ (by omega)
  · have h1 : (streamG i chunk).length ≠ 0 :=
      fun hc => hd (List.eq_nil_of_length_eq_zero hc)
    have h4 := hg.1
    have h5 : (raw ++ streamG i chunk).length = raw.length +
        (streamG i chunk).length := List.length_append raw (streamG i chunk)
    exact Prod.Lex.left _ _ (by omega)

/-- `get_media` (`__base__.py` lines 250-288) from the initial state
(empty `raw_media`; defaults `chunk_size = 50000`,
`skip_at_end_bytes = 167`). -/
def get_media (streamG : ℕ → ℕ → ByteStr) (stops : ℕ → List String)
    (mid : String) (totalSize chunk skipAtEnd : ℕ) : GetMediaRun :=
  getMediaLoop streamG stops mid totalSize skipAtEnd 0 chunk [] []

/-! ### The shared cancellation flag: `MutableBool`
(`utils.py` lines 215-227). -/

/-- `MutableBool`: a mutable wrapper around a single boolean value.
`__bool__` returns the wrapped value. -/
structure MutableBool where
  value : Bool
deriving Repr, DecidableEq

/-- `MutableBool.set(value)`: replaces the wrapped value
(`utils.py` lines 220-221). -/
def MutableBool.set (_ : MutableBool) (v : Bool) : MutableBool := ⟨v⟩

/-! ### The Playback Scheduler: the foreground loop of
`AbstractMediaItem.play` (`__base__.py` lines 414-460).

The loop is modeled against a snapshot of the hand-off queue (the
container as produced by a finished worker run).  `time.time()` calls are
numbered; every call (including those inside `print` f-strings) consumes
one clock index.  `stdin.write` may raise `BrokenPipeError` per the
`writeFails` oracle, which drives the except-branch of lines 443-447.
`stop_marker.set(...)` calls are recorded in `flagWrites`. -/

/-- How one Scheduler invocation ends: popping the terminal sentinel and
returning normally (`complete`), breaking out via the
`KeyboardInterrupt`/`BrokenPipeError` handler of lines 443-447
(`cancelled`), or raising `RuntimeError` from the 15-second stall watchdog
of lines 419-423 (`failedStall`). -/
inductive SOutcome
  | complete
  | cancelled
  | failedStall
deriving Repr, DecidableEq

/-- The scheduler's loop state: the remaining queue snapshot,
`estimated_playback_end_on`, `next_frame_critical_time`, `last_frame_on`,
the clock-call and write-call counters, the payloads written to the
player's stdin so far, and the values passed to `stop_marker.set` so far. -/
structure SchedState where
  container : List (ℚ × ByteStr)
  est : ℚ
  critical : ℚ
  lastFrameOn : ℤ
  k : ℕ
  w : ℕ
  written : List ByteStr
  flagWrites : List Bool
deriving Repr, DecidableEq

/-- Observable result of one Scheduler invocation. `resetCalled` records
whether the final `self.reset_stream()` of line 460 was reached on this
exit path. -/
structure SchedRun where
  outcome : SOutcome
  est : ℚ
  written : List ByteStr
  flagWrites : List Bool
  resetCalled : Bool
deriving Repr, DecidableEq

/-- Lines 426-429 lag compensation: if `next_frame_critical_time` is set
and the current time exceeds it by more than the 0.03 s slack,
`estimated_playback_end_on` is advanced by `time.time() -
next_frame_critical_time` — the full overrun, measured with a second
`time.time()` call (`tCond` is the call in the comparison of line 427,
`tInc` the call in the increment of line 428). -/
def lagAdjust (critical est tCond tInc : ℚ) : ℚ :=
  if critical ≠ 0 ∧ critical + 3 / 100 < tCond then est + (tInc - critical)
  else est

/-- Lines 425-432 of the scheduler iteration, run when the queue is
non-empty before the pop: `last_frame_on = int(time.time())` (Python's
`int()` truncation equals `Rat.floor` since timestamps are nonnegative),
the lag-compensation block of lines 426-429 (with the `print`'s own
`time.time()` call consuming one clock index), and the playback-start
initialisation of lines 430-432. -/
def schedMid (clock : ℕ → ℚ) (st : SchedState) : SchedState :=
  let st1 : SchedState :=
    { st with lastFrameOn := (clock (st.k + 1)).floor, k := st.k + 2 }
  let st2 : SchedState :=
    if st1.critical = 0 then st1
    else if st1.critical + 3 / 100 < clock st1.k then
      { st1 with
        est := lagAdjust st1.critical st1.est (clock st1.k)
          (clock (st1.k + 1)),
        k := st1.k + 3 }
    else { st1 with k := st1.k + 1 }
  if st2.est = 0 then { st2 with est := clock st2.k, k := st2.k + 1 } else st2

/-- One iteration of the scheduler's `while True` loop (lines 417-447),
ending either in a terminal `SchedRun` (`Sum.inl`) or a successor state
(`Sum.inr`). -/
def schedStep (clock : ℕ → ℚ) (writeFails : ℕ → Bool) (st : SchedState) :
    SchedRun ⊕ SchedState :=
  -- line 419: if int(time.time()) - last_frame_on > 15 → set flag, raise
  if 15 < (clock st.k).floor - st.lastFrameOn then
    .inl { outcome := .failedStall, est := st.est, written := st.written,
           flagWrites := st.flagWrites ++ [true], resetCalled := false }
  else
    match st.container with
    | [] =>
      -- lines 440-442: queue empty, sleep 0.1 s and loop
      .inr { st with k := st.k + 1 }
    | seg :: rest =>
      -- lines 425-432 (schedMid), then line 433-436: pop; empty payload is
      -- the terminal sentinel → break, lines 448-460 reach reset_stream()
      if seg.2 = [] then
        .inl { outcome := .complete, est := (schedMid clock st).est,
               written := (schedMid clock st).written,
               flagWrites := (schedMid clock st).flagWrites,
               resetCalled := true }
      else
        -- line 437: est += duration; line 438: write payload
        if writeFails (schedMid clock st).w then
          -- BrokenPipeError → except branch lines 443-447 → break,
          -- then lines 448-460 run and reach reset_stream()
          .inl { outcome := .cancelled,
                 est := (schedMid clock st).est + seg.1,
                 written := (schedMid clock st).written,
                 flagWrites := (schedMid clock st).flagWrites ++ [true],
                 resetCalled := true }
        else
          -- line 439: next_frame_critical_time = time.time() + duration
          .inr { schedMid clock st with
                 container := rest,
                 est := (schedMid clock st).est + seg.1,
                 critical := clock (schedMid clock st).k + seg.1,
                 k := (schedMid clock st).k + 1,
                 w := (schedMid clock st).w + 1,
                 written := (schedMid clock st).written ++ [seg.2] }

/-- The scheduler's `while True` loop, fuel-bounded (the loop can spin
forever in WARMUP if no data ever arrives and the clock never advances;
`none` means the loop did not exit within `fuel` iterations). -/
def schedLoop (clock : ℕ → ℚ) (writeFails : ℕ → Bool) :
    ℕ → SchedState → Option SchedRun
  | 0, _ => none
  | fuel + 1, st =>
    match schedStep clock writeFails st with
    | .inl r => some r
    | .inr st2 => schedLoop clock writeFails fuel st2

/-- The Scheduler invocation of `play` (lines 414-460): initial
`estimated_playback_end_on = 0.0`, `next_frame_critical_time = 0.0`,
`last_frame_on = int(time.time())` (the call of line 416, clock index 0),
then the loop. -/
def play_scheduler (clock : ℕ → ℚ) (writeFails : ℕ → Bool) (fuel : ℕ)
    (container : List (ℚ × ByteStr)) : Option SchedRun :=
  schedLoop clock writeFails fuel
    { container := container, est := 0, critical := 0,
      lastFrameOn := (clock 0).floor, k := 1, w := 0, written := [],
      flagWrites := [] }

/-! ## Lemmas -/

/-! ### Unfolding lemmas for the five exit/step shapes of the worker loop -/

theorem fetchLoop_exit (stream : ℕ → ℕ → ByteStr) (probe : ByteStr → Option ℚ)
    (halt : ℕ → Bool) (totalSize skipAtEnd i : ℕ) (st : WorkerState)
    (h : ¬(st.sizeFetched < totalSize ∧ halt i = false)) :
    fetchLoop stream probe halt totalSize skipAtEnd i st
      = { container := [(0, [])], requests := [], outcome := .ok,
          final := st } := by
  rw [fetchLoop, dif_neg h]

theorem fetchLoop_break (stream : ℕ → ℕ → ByteStr) (probe : ByteStr → Option ℚ)
    (halt : ℕ → Bool) (totalSize skipAtEnd i : ℕ) (st : WorkerState)
    (hg : st.sizeFetched < totalSize ∧ halt i = false)
    (h : stream i st.chunk = [] ∧ st.chunk ≤ skipAtEnd) :
    fetchLoop stream probe halt totalSize skipAtEnd i st
      = { container := [(0, [])], requests := [st.chunk], outcome := .ok,
          final := { st with
            pendingData := st.pendingData ++ stream i st.chunk } } := by
  rw [fetchLoop, dif_pos hg, dif_pos h]

theorem fetchLoop_raise (stream : ℕ → ℕ → ByteStr) (probe : ByteStr → Option ℚ)
    (halt : ℕ → Bool) (totalSize skipAtEnd i : ℕ) (st : WorkerState)
    (hg : st.sizeFetched < totalSize ∧ halt i = false)
    (hb : ¬(stream i st.chunk = [] ∧ st.chunk ≤ skipAtEnd))
    (h : stream i st.chunk = [] ∧
      skipAtEnd < shrink totalSize st.sizeFetched st.chunk) :
    fetchLoop stream probe halt totalSize skipAtEnd i st
      = { container := [(0, [])], requests := [st.chunk],
          outcome := .streamReadError,
          final := { st with
            pendingData := st.pendingData ++ stream i st.chunk,
            chunk := shrink totalSize st.sizeFetched st.chunk } } := by
  rw [fetchLoop, dif_pos hg, dif_neg hb, dif_pos h]

theorem fetchLoop_parse (stream : ℕ → ℕ → ByteStr) (probe : ByteStr → Option ℚ)
    (halt : ℕ → Bool) (totalSize skipAtEnd i : ℕ) (st : WorkerState)
    (hg : st.sizeFetched < totalSize ∧ halt i = false)
    (hb : ¬(stream i st.chunk = [] ∧ st.chunk ≤ skipAtEnd))
    (hr : ¬(stream i st.chunk = [] ∧
      skipAtEnd < shrink totalSize st.sizeFetched st.chunk))
    (L : ℚ) (hp : probe (st.fullData ++ stream i st.chunk) = some L) :
    fetchLoop stream probe halt totalSize skipAtEnd i st
      = { container := (L - st.lengthTillLastSegment,
            st.pendingData ++ stream i st.chunk) ::
            (fetchLoop stream probe halt totalSize skipAtEnd (i + 1)
              { sizeFetched := st.sizeFetched + (stream i st.chunk).length,
                pendingData := [],
                fullData := st.fullData ++ stream i st.chunk,
                lengthTillLastSegment := L,
                chunk := shrink totalSize st.sizeFetched st.chunk }).container,
          requests := st.chunk ::
            (fetchLoop stream probe halt totalSize skipAtEnd (i + 1)
              { sizeFetched := st.sizeFetched + (stream i st.chunk).length,
                pendingData := [],
                fullData := st.fullData ++ stream i st.chunk,
                lengthTillLastSegment := L,
                chunk := shrink totalSize st.sizeFetched st.chunk }).requests,
          outcome :=
            (fetchLoop stream probe halt totalSize skipAtEnd (i + 1)
              { sizeFetched := st.sizeFetched + (stream i st.chunk).length,
                pendingData := [],
                fullData := st.fullData ++ stream i st.chunk,
                lengthTillLastSegment := L,
                chunk := shrink totalSize st.sizeFetched st.chunk }).outcome,
          final :=
            (fetchLoop stream probe halt totalSize skipAtEnd (i + 1)
              { sizeFetched := st.sizeFetched + (stream i st.chunk).length,
                pendingData := [],
                fullData := st.fullData ++ stream i st.chunk,
                lengthTillLastSegment := L,
                chunk := shrink totalSize st.sizeFetched st.chunk }).final } := by
  rw [fetchLoop, dif_pos hg, dif_neg hb, dif_neg hr, hp]

theorem fetchLoop_noparse (stream : ℕ → ℕ → ByteStr) (probe : ByteStr → Option ℚ)
    (halt : ℕ → Bool) (totalSize skipAtEnd i : ℕ) (st : WorkerState)
    (hg : st.sizeFetched < totalSize ∧ halt i = false)
    (hb : ¬(stream i st.chunk = [] ∧ st.chunk ≤ skipAtEnd))
    (hr : ¬(stream i st.chunk = [] ∧
      skipAtEnd < shrink totalSize st.sizeFetched st.chunk))
    (hp : probe (st.fullData ++ stream i st.chunk) = none) :
    fetchLoop stream probe halt totalSize skipAtEnd i st
      = { container :=
            (fetchLoop stream probe halt totalSize skipAtEnd (i + 1)
              { sizeFetched := st.sizeFetched + (stream i st.chunk).length,
                pendingData := st.pendingData ++ stream i st.chunk,
                fullData := st.fullData ++ stream i st.chunk,
                lengthTillLastSegment := st.lengthTillLastSegment,
                chunk := shrink totalSize st.sizeFetched st.chunk }).container,
          requests := st.chunk ::
            (fetchLoop stream probe halt totalSize skipAtEnd (i + 1)
              { sizeFetched := st.sizeFetched + (stream i st.chunk).length,
                pendingData := st.pendingData ++ stream i st.chunk,
                fullData := st.fullData ++ stream i st.chunk,
                lengthTillLastSegment := st.lengthTillLastSegment,
                chunk := shrink totalSize st.sizeFetched st.chunk }).requests,
          outcome :=
            (fetchLoop stream probe halt totalSize skipAtEnd (i + 1)
              { sizeFetched := st.sizeFetched + (stream i st.chunk).length,
                pendingData := st.pendingData ++ stream i st.chunk,
                fullData := st.fullData ++ stream i st.chunk,
                lengthTillLastSegment := st.lengthTillLastSegment,
                chunk := shrink totalSize st.sizeFetched st.chunk }).outcome,
          final :=
            (fetchLoop stream probe halt totalSize skipAtEnd (i + 1)
              { sizeFetched := st.sizeFetched + (stream i st.chunk).length,
                pendingData := st.pendingData ++ stream i st.chunk,
                fullData := st.fullData ++ stream i st.chunk,
                lengthTillLastSegment := st.lengthTillLastSegment,
                chunk := shrink totalSize st.sizeFetched st.chunk }).final } := by
  rw [fetchLoop, dif_pos hg, dif_neg hb, dif_neg hr, hp]

/-! ### Invariants of the worker loop -/

/-- Each published segment duration is `length_till_now -
length_till_last_segment` and `length_till_last_segment` is then set to
`length_till_now`, so the container durations telescope. -/
theorem fetchLoop_telescope (stream : ℕ → ℕ → ByteStr)
    (probe : ByteStr → Option ℚ) (halt : ℕ → Bool) (totalSize skipAtEnd : ℕ)
    (i : ℕ) (st : WorkerState) :
    (((fetchLoop stream probe halt totalSize skipAtEnd i st).container.map
        Prod.fst).sum : ℚ)
      = (fetchLoop stream probe halt totalSize skipAtEnd i
          st).final.lengthTillLastSegment - st.lengthTillLastSegment := by
  induction i, st using fetchLoop.induct stream probe halt totalSize skipAtEnd
    with
  | case1 i st hg hcond =>
    rw [fetchLoop_break stream probe halt totalSize skipAtEnd i st hg hcond]
    simp
  | case2 i st hg hb hcond =>
    rw [fetchLoop_raise stream probe halt totalSize skipAtEnd i st hg hb hcond]
    simp
  | case3 i st hg hb hr L hp ih =>
    rw [fetchLoop_parse stream probe halt totalSize skipAtEnd i st hg hb hr
      L hp]
    simp only [List.map_cons, List.sum_cons, ih]
    ring
  | case4 i st hg hb hr hp ih =>
    rw [fetchLoop_noparse stream probe halt totalSize skipAtEnd i st hg hb hr
      hp]
    simpa using ih
  | case5 i st hg =>
    rw [fetchLoop_exit stream probe halt totalSize skipAtEnd i st hg]
    simp

/-- The invariant is preserved by the loop, and (provided the probe fails on
the empty buffer, as `mutagen` does) every empty-payload element ever placed
in the container carries duration `0`. -/
theorem fetchLoop_inv (stream : ℕ → ℕ → ByteStr)
    (probe : ByteStr → Option ℚ) (halt : ℕ → Bool) (totalSize skipAtEnd : ℕ)
    (i : ℕ) (st : WorkerState) :
    WorkerInv probe st →
      WorkerInv probe (fetchLoop stream probe halt totalSize skipAtEnd i
        st).final ∧
      (probe [] = none →
        ∀ p ∈ (fetchLoop stream probe halt totalSize skipAtEnd i st).container,
          p.2 = [] → p.1 = 0) := by
  induction i, st using fetchLoop.induct stream probe halt totalSize skipAtEnd
    with
  | case1 i st hg hcond =>
    intro hinv
    rw [fetchLoop_break stream probe halt totalSize skipAtEnd i st hg hcond]
    refine ⟨?_, ?_⟩
    · simpa [WorkerInv, hcond.1] using hinv
    · intro _ p hp _
      simp only [List.mem_singleton] at hp
      simp [hp]
  | case2 i st hg hb hcond =>
    intro hinv
    rw [fetchLoop_raise stream probe halt totalSize skipAtEnd i st hg hb hcond]
    refine ⟨?_, ?_⟩
    · simpa [WorkerInv, hcond.1] using hinv
    · intro _ p hp _
      simp only [List.mem_singleton] at hp
      simp [hp]
  | case3 i st hg hb hr L hp ih =>
    intro hinv
    have hinv2 : WorkerInv probe
        { sizeFetched := st.sizeFetched + (stream i st.chunk).length,
          pendingData := [],
          fullData := st.fullData ++ stream i st.chunk,
          lengthTillLastSegment := L,
          chunk := shrink totalSize st.sizeFetched st.chunk } := by
      constructor
      · intro _
        exact Or.inr hp
      · intro hne
        exact absurd rfl hne
    rcases ih hinv2 with ⟨hfin, hcont⟩
    rw [fetchLoop_parse stream probe halt totalSize skipAtEnd i st hg hb hr
      L hp]
    refine ⟨hfin, ?_⟩
    intro hnil p hpmem hpnil
    rcases List.mem_cons.mp hpmem with hhd | htl
    · -- the head segment: empty payload forces a repeated successful probe
      -- of the unchanged full_data, so its duration telescopes to zero
      subst hhd
      simp only at hpnil
      rcases List.append_eq_nil.mp hpnil with ⟨hpend, hdata⟩
      rcases hinv.1 hpend with hfull | hprev
      · exfalso
        rw [hfull, hdata, List.append_nil] at hp
        rw [hp] at hnil
        exact Option.noConfusion hnil
      · rw [hdata, List.append_nil] at hp
        rw [hprev] at hp
        have : st.lengthTillLastSegment = L := Option.some.inj hp
        simp [this]
    · exact hcont hnil p htl hpnil
  | case4 i st hg hb hr hp ih =>
    intro hinv
    have hinv2 : WorkerInv probe
        { sizeFetched := st.sizeFetched + (stream i st.chunk).length,
          pendingData := st.pendingData ++ stream i st.chunk,
          fullData := st.fullData ++ stream i st.chunk,
          lengthTillLastSegment := st.lengthTillLastSegment,
          chunk := shrink totalSize st.sizeFetched st.chunk } := by
      constructor
      · intro hpend
        rcases List.append_eq_nil.mp hpend with ⟨hpend1, hdata⟩
        simp only [hdata, List.append_nil]
        exact hinv.1 hpend1
      · intro _
        exact hp
    rcases ih hinv2 with ⟨hfin, hcont⟩
    rw [fetchLoop_noparse stream probe halt totalSize skipAtEnd i st hg hb hr
      hp]
    exact ⟨hfin, fun hnil p hpmem hpnil => hcont hnil p hpmem hpnil⟩
  | case5 i st hg =>
    intro hinv
    rw [fetchLoop_exit stream probe halt totalSize skipAtEnd i st hg]
    refine ⟨hinv, ?_⟩
    intro _ p hp _
    simp only [List.mem_singleton] at hp
    simp [hp]

/-- `full_data` accumulates exactly the already-published payloads followed
by the still-pending bytes: bytes that never made it into a published
segment stay in `pending_data`. -/
theorem fetchLoop_flatten (stream : ℕ → ℕ → ByteStr)
    (probe : ByteStr → Option ℚ) (halt : ℕ → Bool) (totalSize skipAtEnd : ℕ)
    (i : ℕ) (st : WorkerState) :
    ∀ F : ByteStr, st.fullData = F ++ st.pendingData →
      (fetchLoop stream probe halt totalSize skipAtEnd i st).final.fullData
        = (F ++ ((fetchLoop stream probe halt totalSize skipAtEnd i
            st).container.map Prod.snd).flatten)
          ++ (fetchLoop stream probe halt totalSize skipAtEnd i
              st).final.pendingData := by
  induction i, st using fetchLoop.induct stream probe halt totalSize skipAtEnd
    with
  | case1 i st hg hcond =>
    intro F hF
    rw [fetchLoop_break stream probe halt totalSize skipAtEnd i st hg hcond]
    simp [hcond.1, hF]
  | case2 i st hg hb hcond =>
    intro F hF
    rw [fetchLoop_raise stream probe halt totalSize skipAtEnd i st hg hb hcond]
    simp [hcond.1, hF]
  | case3 i st hg hb hr L hp ih =>
    intro F hF
    have hstep := ih (F ++ (st.pendingData ++ stream i st.chunk))
      (by simp [hF, List.append_assoc])
    rw [fetchLoop_parse stream probe halt totalSize skipAtEnd i st hg hb hr
      L hp]
    simpa [List.append_assoc] using hstep
  | case4 i st hg hb hr hp ih =>
    intro F hF
    have hstep := ih F (by simp [hF, List.append_assoc])
    rw [fetchLoop_noparse stream probe halt totalSize skipAtEnd i st hg hb hr
      hp]
    simpa [List.append_assoc] using hstep
  | case5 i st hg =>
    intro F hF
    rw [fetchLoop_exit stream probe halt totalSize skipAtEnd i st hg]
    simp [hF]

/-- Every terminating run of the worker loop appends `(0.0, b'')` as its
very last container element (the line-389 sentinel, or the pre-raise
sentinel of line 373). -/
theorem fetchLoop_sentinel (stream : ℕ → ℕ → ByteStr)
    (probe : ByteStr → Option ℚ) (halt : ℕ → Bool) (totalSize skipAtEnd : ℕ)
    (i : ℕ) (st : WorkerState) :
    ∃ body, (fetchLoop stream probe halt totalSize skipAtEnd i st).container
      = body ++ [((0 : ℚ), ([] : ByteStr))] := by
  induction i, st using fetchLoop.induct stream probe halt totalSize skipAtEnd
    with
  | case1 i st hg hcond =>
    rw [fetchLoop_break stream probe halt totalSize skipAtEnd i st hg hcond]
    exact ⟨[], rfl⟩
  | case2 i st hg hb hcond =>
    rw [fetchLoop_raise stream probe halt totalSize skipAtEnd i st hg hb hcond]
    exact ⟨[], rfl⟩
  | case3 i st hg hb hr L hp ih =>
    rcases ih with ⟨body, hbody⟩
    rw [fetchLoop_parse stream probe halt totalSize skipAtEnd i st hg hb hr
      L hp]
    exact ⟨(L - st.lengthTillLastSegment,
      st.pendingData ++ stream i st.chunk) :: body, by simp [hbody]⟩
  | case4 i st hg hb hr hp ih =>
    rcases ih with ⟨body, hbody⟩
    rw [fetchLoop_noparse stream probe halt totalSize skipAtEnd i st hg hb hr
      hp]
    exact ⟨body, by simp [hbody]⟩
  | case5 i st hg =>
    rw [fetchLoop_exit stream probe halt totalSize skipAtEnd i st hg]
    exact ⟨[], rfl⟩

/-- Every read issued by the worker loop was preceded by a loop-condition
check that observed the halt flag as `false`: the `j`-th read happens only
if the flag observed at check `i + j` was `false`. -/
theorem fetchLoop_reads_halt (stream : ℕ → ℕ → ByteStr)
    (probe : ByteStr → Option ℚ) (halt : ℕ → Bool) (totalSize skipAtEnd : ℕ)
    (i : ℕ) (st : WorkerState) :
    ∀ j < (fetchLoop stream probe halt totalSize skipAtEnd i
      st).requests.length, halt (i + j) = false := by
  induction i, st using fetchLoop.induct stream probe halt totalSize skipAtEnd
    with
  | case1 i st hg hcond =>
    intro j hj
    rw [fetchLoop_break stream probe halt totalSize skipAtEnd i st hg hcond]
      at hj
    simp only [List.length_singleton] at hj
    have : j = 0 := by omega
    simpa [this] using hg.2
  | case2 i st hg hb hcond =>
    intro j hj
    rw [fetchLoop_raise stream probe halt totalSize skipAtEnd i st hg hb hcond]
      at hj
    simp only [List.length_singleton] at hj
    have : j = 0 := by omega
    simpa [this] using hg.2
  | case3 i st hg hb hr L hp ih =>
    intro j hj
    rw [fetchLoop_parse stream probe halt totalSize skipAtEnd i st hg hb hr
      L hp] at hj
    simp only [List.length_cons] at hj
    cases j with
    | zero => simpa using hg.2
    | succ j =>
      have := ih j (by omega)
      have harith : i + 1 + j = i + (j + 1) := by omega
      rwa [harith] at this
  | case4 i st hg hb hr hp ih =>
    intro j hj
    rw [fetchLoop_noparse stream probe halt totalSize skipAtEnd i st hg hb hr
      hp] at hj
    simp only [List.length_cons] at hj
    cases j with
    | zero => simpa using hg.2
    | succ j =>
      have := ih j (by omega)
      have harith : i + 1 + j = i + (j + 1) := by omega
      rwa [harith] at this
  | case5 i st hg =>
    intro j hj
    rw [fetchLoop_exit stream probe halt totalSize skipAtEnd i st hg] at hj
    simp at hj

/-! ### Bulk fetcher step and invariant lemmas -/

theorem getMediaLoop_exit (streamG : ℕ → ℕ → ByteStr)
    (stops : ℕ → List String) (mid : String) (totalSize skipAtEnd i chunk : ℕ)
    (raw : ByteStr) (pg : List (ℕ × ℕ × String))
    (h : ¬(raw.length < totalSize ∧ mid ∉ stops i)) :
    getMediaLoop streamG stops mid totalSize skipAtEnd i chunk raw pg
      = getMediaExit mid (stops (i + 1)) raw pg := by
  rw [getMediaLoop, dif_neg h]

theorem getMediaLoop_break (streamG : ℕ → ℕ → ByteStr)
    (stops : ℕ → List String) (mid : String) (totalSize skipAtEnd i chunk : ℕ)
    (raw : ByteStr) (pg : List (ℕ × ℕ × String))
    (hg : raw.length < totalSize ∧ mid ∉ stops i)
    (h : streamG i chunk = [] ∧ chunk ≤ skipAtEnd) :
    getMediaLoop streamG stops mid totalSize skipAtEnd i chunk raw pg
      = getMediaExit mid (stops (i + 1)) (raw ++ streamG i chunk)
          (pg ++ [((raw ++ streamG i chunk).length, totalSize,
            "Downloading")]) := by
  rw [getMediaLoop, dif_pos hg, dif_pos h]

theorem getMediaLoop_raise (streamG : ℕ → ℕ → ByteStr)
    (stops : ℕ → List String) (mid : String) (totalSize skipAtEnd i chunk : ℕ)
    (raw : ByteStr) (pg : List (ℕ × ℕ × String))
    (hg : raw.length < totalSize ∧ mid ∉ stops i)
    (hb : ¬(streamG i chunk = [] ∧ chunk ≤ skipAtEnd))
    (h : streamG i chunk = [] ∧
      skipAtEnd < shrink totalSize (raw ++ streamG i chunk).length chunk) :
    getMediaLoop streamG stops mid totalSize skipAtEnd i chunk raw pg
      = { outcome := .streamReadErr, raw := raw ++ streamG i chunk,
          pgEvents :=
            (pg ++ [((raw ++ streamG i chunk).length, totalSize,
              "Downloading")]) ++ [(0, 1, "Read Error")],
          resetCalled := true, stopAtExit := [],
          finalStop := stops (i + 1) } := by
  rw [getMediaLoop, dif_pos hg, dif_neg hb, dif_pos h]

theorem getMediaLoop_cont (streamG : ℕ → ℕ → ByteStr)
    (stops : ℕ → List String) (mid : String) (totalSize skipAtEnd i chunk : ℕ)
    (raw : ByteStr) (pg : List (ℕ × ℕ × String))
    (hg : raw.length < totalSize ∧ mid ∉ stops i)
    (hb : ¬(streamG i chunk = [] ∧ chunk ≤ skipAtEnd))
    (hr : ¬(streamG i chunk = [] ∧
      skipAtEnd < shrink totalSize (raw ++ streamG i chunk).length chunk)) :
    getMediaLoop streamG stops mid totalSize skipAtEnd i chunk raw pg
      = getMediaLoop streamG stops mid totalSize skipAtEnd (i + 1)
          (shrink totalSize (raw ++ streamG i chunk).length chunk)
          (raw ++ streamG i chunk)
          (pg ++ [((raw ++ streamG i chunk).length, totalSize,
            "Downloading")]) := by
  rw [getMediaLoop, dif_pos hg, dif_neg hb, dif_neg hr]

/-- If the post-loop check of line 282 observes the media id in the stop
list, the run ends in `MediaFetchInterruptedException` and the first
occurrence of the id has been popped from the list. -/
theorem getMediaExit_stop (mid : String) (ls : List String) (raw : ByteStr)
    (pg : List (ℕ × ℕ × String))
    (h : mid ∈ (getMediaExit mid ls raw pg).stopAtExit) :
    (getMediaExit mid ls raw pg).outcome = .interrupted ∧
    (getMediaExit mid ls raw pg).finalStop
      = (getMediaExit mid ls raw pg).stopAtExit.erase mid := by
  unfold getMediaExit at *
  split at h
  · rename_i hmem
    rw [if_pos hmem]
    exact ⟨rfl, rfl⟩
  · rename_i hmem
    simp only at h
    exact absurd h hmem

/-- Cancellation precedence in the `get_media` loop: whenever the post-loop
check observes the id, the run is `interrupted` (raising
`MediaFetchInterruptedException` and discarding the bytes) with the first
occurrence of the id popped — regardless of how much was fetched. -/
theorem getMediaLoop_stop (streamG : ℕ → ℕ → ByteStr)
    (stops : ℕ → List String) (mid : String) (totalSize skipAtEnd : ℕ) :
    ∀ (i chunk : ℕ) (raw : ByteStr) (pg : List (ℕ × ℕ × String)),
      mid ∈ (getMediaLoop streamG stops mid totalSize skipAtEnd i chunk raw
        pg).stopAtExit →
      (getMediaLoop streamG stops mid totalSize skipAtEnd i chunk raw
        pg).outcome = .interrupted ∧
      (getMediaLoop streamG stops mid totalSize skipAtEnd i chunk raw
        pg).finalStop
        = (getMediaLoop streamG stops mid totalSize skipAtEnd i chunk raw
            pg).stopAtExit.erase mid := by
  intro i chunk raw pg
  induction i, chunk, raw, pg using getMediaLoop.induct streamG stops mid
    totalSize skipAtEnd with
  | case1 i chunk raw pg hg hcond =>
    rw [getMediaLoop_break streamG stops mid totalSize skipAtEnd i chunk raw
      pg hg hcond]
    exact getMediaExit_stop mid _ _ _
  | case2 i chunk raw pg hg hb hcond =>
    rw [getMediaLoop_raise streamG stops mid totalSize skipAtEnd i chunk raw
      pg hg hb hcond]
    intro h
    simp at h
  | case3 i chunk raw pg hg hb hr ih =>
    rw [getMediaLoop_cont streamG stops mid totalSize skipAtEnd i chunk raw
      pg hg hb hr]
    exact ih
  | case4 i chunk raw pg hg =>
    rw [getMediaLoop_exit streamG stops mid totalSize skipAtEnd i chunk raw
      pg hg]
    exact getMediaExit_stop mid _ _ _

/-- End-tolerance characterisation of the `get_media` loop, assuming no
cancellation is ever requested and the chunk-size invariant
(`chunk` is either still the caller's initial value `c₀ > tolerance` or has
been shrunk to a past remaining-byte count that bounds the current one). -/
theorem getMediaLoop_tolerance (streamG : ℕ → ℕ → ByteStr)
    (stops : ℕ → List String) (mid : String) (totalSize skipAtEnd c0 : ℕ)
    (hc : skipAtEnd < c0) (hnc : ∀ j, mid ∉ stops j) :
    ∀ (i chunk : ℕ) (raw : ByteStr) (pg : List (ℕ × ℕ × String)),
      (chunk = c0 ∨ totalSize - raw.length ≤ chunk) →
      ((getMediaLoop streamG stops mid totalSize skipAtEnd i chunk raw
          pg).outcome = .ok →
        totalSize - (getMediaLoop streamG stops mid totalSize skipAtEnd i
          chunk raw pg).raw.length ≤ skipAtEnd) ∧
      ((getMediaLoop streamG stops mid totalSize skipAtEnd i chunk raw
          pg).outcome = .streamReadErr →
        skipAtEnd < totalSize - (getMediaLoop streamG stops mid totalSize
          skipAtEnd i chunk raw pg).raw.length ∧
        (getMediaLoop streamG stops mid totalSize skipAtEnd i chunk raw
          pg).resetCalled = true) ∧
      (getMediaLoop streamG stops mid totalSize skipAtEnd i chunk raw
        pg).outcome ≠ .interrupted := by
  intro i chunk raw pg
  induction i, chunk, raw, pg using getMediaLoop.induct streamG stops mid
    totalSize skipAtEnd with
  | case1 i chunk raw pg hg hcond =>
    intro hK
    rw [getMediaLoop_break streamG stops mid totalSize skipAtEnd i chunk raw
      pg hg hcond]
    have hrem : totalSize - raw.length ≤ skipAtEnd := by
      rcases hK with hK | hK
      · omega
      · omega
    unfold getMediaExit
    rw [if_neg (hnc (i + 1))]
    refine ⟨?_, ?_, ?_⟩
    · intro _
      simpa [hcond.1] using hrem
    · intro hcontra
      simp at hcontra
    · simp
  | case2 i chunk raw pg hg hb hcond =>
    intro hK
    rw [getMediaLoop_raise streamG stops mid totalSize skipAtEnd i chunk raw
      pg hg hb hcond]
    refine ⟨?_, ?_, ?_⟩
    · intro hcontra
      simp at hcontra
    · intro _
      have hs := hcond.2
      rw [hcond.1, List.append_nil] at hs
      refine ⟨?_, rfl⟩
      show skipAtEnd < totalSize - (raw ++ streamG i chunk).length
      rw [hcond.1, List.append_nil]
      unfold shrink at hs
      split at hs
      · omega
      · omega
    · simp
  | case3 i chunk raw pg hg hb hr ih =>
    intro hK
    rw [getMediaLoop_cont streamG stops mid totalSize skipAtEnd i chunk raw
      pg hg hb hr]
    refine ih ?_
    unfold shrink
    split
    · right
      omega
    · rename_i hsp
      rcases hK with hK | hK
      · left; exact hK
      · right
        have hlen : raw.length ≤ (raw ++ streamG i chunk).length := by
          simp
        omega
  | case4 i chunk raw pg hg =>
    intro hK
    rw [getMediaLoop_exit streamG stops mid totalSize skipAtEnd i chunk raw
      pg hg]
    have hdone : totalSize ≤ raw.length := by
      rcases Decidable.em (raw.length < totalSize) with hlt | hlt
      · exact absurd ⟨hlt, hnc i⟩ hg
      · omega
    unfold getMediaExit
    rw [if_neg (hnc (i + 1))]
    refine ⟨?_, ?_, ?_⟩
    · intro _
      show totalSize - raw.length ≤ skipAtEnd
      omega
    · intro hcontra
      simp at hcontra
    · simp

/-- `schedMid` only touches the clock counter, `est`, `critical` and
`last_frame_on`: the queue, the written payloads, the flag writes and the
write counter pass through unchanged. -/
theorem schedMid_frame (clock : ℕ → ℚ) (st : SchedState) :
    (schedMid clock st).written = st.written ∧
    (schedMid clock st).flagWrites = st.flagWrites ∧
    (schedMid clock st).container = st.container ∧
    (schedMid clock st).w = st.w := by
  simp only [schedMid]
  split_ifs <;> simp

/-! ### Scheduler step and loop lemmas -/

theorem schedStep_reset (clock : ℕ → ℚ) (writeFails : ℕ → Bool)
    (st : SchedState) (r : SchedRun)
    (h : schedStep clock writeFails st = .inl r) :
    (r.outcome = .complete ∨ r.outcome = .cancelled → r.resetCalled = true) ∧
    (r.outcome = .failedStall → r.resetCalled = false) := by
  simp only [schedStep] at h
  split at h
  · cases h; simp
  · split at h
    · exact absurd h (by simp)
    · split at h
      · cases h; simp
      · split at h
        · cases h; simp
        · exact absurd h (by simp)

theorem schedStep_flags_inl (clock : ℕ → ℚ) (writeFails : ℕ → Bool)
    (st : SchedState) (r : SchedRun)
    (h : schedStep clock writeFails st = .inl r)
    (hst : ∀ b ∈ st.flagWrites, b = true) :
    ∀ b ∈ r.flagWrites, b = true := by
  have hmid := (schedMid_frame clock st).2.1
  simp only [schedStep] at h
  split at h
  · cases h
    intro b hb
    simp only [List.mem_append, List.mem_singleton] at hb
    rcases hb with hb1 | hb1
    · exact hst b hb1
    · exact hb1
  · split at h
    · exact absurd h (by simp)
    · split at h
      · cases h
        intro b hb
        simp only [hmid] at hb
        exact hst b hb
      · split at h
        · cases h
          intro b hb
          simp only [hmid, List.mem_append, List.mem_singleton] at hb
          rcases hb with hb1 | hb1
          · exact hst b hb1
          · exact hb1
        · exact absurd h (by simp)

theorem schedStep_flags_inr (clock : ℕ → ℚ) (writeFails : ℕ → Bool)
    (st st2 : SchedState) (h : schedStep clock writeFails st = .inr st2) :
    st2.flagWrites = st.flagWrites := by
  have hmid := (schedMid_frame clock st).2.1
  simp only [schedStep] at h
  split at h
  · exact absurd h (by simp)
  · split at h
    · cases h; rfl
    · split at h
      · exact absurd h (by simp)
      · split at h
        · exact absurd h (by simp)
        · cases h
          simpa using hmid

theorem schedStep_written_inl (clock : ℕ → ℚ) (writeFails : ℕ → Bool)
    (st : SchedState) (r : SchedRun)
    (h : schedStep clock writeFails st = .inl r) :
    r.written = st.written := by
  have hmid := (schedMid_frame clock st).1
  simp only [schedStep] at h
  split at h
  · cases h; rfl
  · split at h
    · exact absurd h (by simp)
    · split at h
      · cases h; simpa using hmid
      · split at h
        · cases h; simpa using hmid
        · exact absurd h (by simp)

theorem schedStep_written_inr (clock : ℕ → ℚ) (writeFails : ℕ → Bool)
    (st st2 : SchedState) (h : schedStep clock writeFails st = .inr st2) :
    (st2.written = st.written ∧ st2.container = st.container) ∨
    ∃ seg rest, st.container = seg :: rest ∧
      st2.written = st.written ++ [seg.2] ∧ st2.container = rest := by
  have hmid := (schedMid_frame clock st).1
  simp only [schedStep] at h
  split at h
  · exact absurd h (by simp)
  · split at h
    · cases h; exact Or.inl ⟨rfl, rfl⟩
    · split at h
      · exact absurd h (by simp)
      · split at h
        · exact absurd h (by simp)
        · cases h
          rename_i seg rest heq _ _
          refine Or.inr ⟨seg, rest, heq, ?_, rfl⟩
          simpa using congrArg (fun l => l ++ [seg.2]) hmid

theorem schedLoop_reset (clock : ℕ → ℚ) (writeFails : ℕ → Bool) :
    ∀ (fuel : ℕ) (st : SchedState) (r : SchedRun),
      schedLoop clock writeFails fuel st = some r →
      (r.outcome = .complete ∨ r.outcome = .cancelled →
        r.resetCalled = true) ∧
      (r.outcome = .failedStall → r.resetCalled = false) := by
  intro fuel
  induction fuel with
  | zero => intro st r h; exact absurd h (by simp [schedLoop])
  | succ n ih =>
    intro st r h
    rw [schedLoop] at h
    rcases hs : schedStep clock writeFails st with r2 | st2
    · rw [hs] at h
      have hr2 : r2 = r := by simpa using h
      subst hr2
      exact schedStep_reset clock writeFails st r2 hs
    · rw [hs] at h
      exact ih st2 r h

theorem schedLoop_flags (clock : ℕ → ℚ) (writeFails : ℕ → Bool) :
    ∀ (fuel : ℕ) (st : SchedState) (r : SchedRun),
      schedLoop clock writeFails fuel st = some r →
      (∀ b ∈ st.flagWrites, b = true) → ∀ b ∈ r.flagWrites, b = true := by
  intro fuel
  induction fuel with
  | zero => intro st r h; exact absurd h (by simp [schedLoop])
  | succ n ih =>
    intro st r h hst
    rw [schedLoop] at h
    rcases hs : schedStep clock writeFails st with r2 | st2
    · rw [hs] at h
      have hr2 : r2 = r := by simpa using h
      subst hr2
      exact schedStep_flags_inl clock writeFails st r2 hs hst
    · rw [hs] at h
      refine ih st2 r h ?_
      rw [schedStep_flags_inr clock writeFails st st2 hs]
      exact hst

theorem schedLoop_written (clock : ℕ → ℚ) (writeFails : ℕ → Bool) :
    ∀ (fuel : ℕ) (st : SchedState) (r : SchedRun),
      schedLoop clock writeFails fuel st = some r →
      ∀ b ∈ r.written, b ∈ st.written ∨ b ∈ st.container.map Prod.snd := by
  intro fuel
  induction fuel with
  | zero => intro st r h; exact absurd h (by simp [schedLoop])
  | succ n ih =>
    intro st r h b hb
    rw [schedLoop] at h
    rcases hs : schedStep clock writeFails st with r2 | st2
    · rw [hs] at h
      have hr2 : r2 = r := by simpa using h
      subst hr2
      rw [schedStep_written_inl clock writeFails st r2 hs] at hb
      exact Or.inl hb
    · rw [hs] at h
      rcases ih st2 r h b hb with hw | hw
      · rcases schedStep_written_inr clock writeFails st st2 hs with
          ⟨hw2, _⟩ | ⟨seg, rest, hcon, hw2, _⟩
        · rw [hw2] at hw
          exact Or.inl hw
        · rw [hw2] at hw
          rcases List.mem_append.mp hw with hw3 | hw3
          · exact Or.inl hw3
          · refine Or.inr ?_
            rw [hcon]
            simp only [List.map_cons, List.mem_cons]
            exact Or.inl (by simpa using hw3)
      · rcases schedStep_written_inr clock writeFails st st2 hs with
          ⟨_, hc2⟩ | ⟨seg, rest, hcon, _, hc2⟩
        · rw [hc2] at hw
          exact Or.inr hw
        · rw [hc2] at hw
          refine Or.inr ?_
          rw [hcon]
          simp only [List.map_cons, List.mem_cons]
          exact Or.inr hw


/-- Dropping the zero-duration empty-payload elements does not change the
sum of the durations. -/
theorem sum_filter_payload (l : List (ℚ × ByteStr))
    (h : ∀ p ∈ l, p.2 = [] → p.1 = 0) :
    (((l.filter (fun p => p.2 ≠ [])).map Prod.fst).sum : ℚ)
      = ((l.map Prod.fst).sum : ℚ) := by
  induction l with
  | nil => rfl
  | cons a t ih =>
    have ht : ∀ p ∈ t, p.2 = [] → p.1 = 0 :=
      fun p hp hq => h p (List.mem_cons_of_mem a hp) hq
    rcases Decidable.em (a.2 = []) with ha | ha
    · rw [List.filter_cons_of_neg (by simp [ha])]
      rw [ih ht]
      simp [h a (List.mem_cons_self a t) ha]
    · rw [List.filter_cons_of_pos (by simp [ha])]
      simp only [List.map_cons, List.sum_cons]
      rw [ih ht]

/-! ## The claims -/

/-- **C3, counterexample.**  The claim "exactly one terminal sentinel
segment `(0.0, empty)` is appended per worker run, and it is the last item
the worker ever appends" is false on the code: with `total_size = 6`,
`chunk = 4`, `skip_at_end = 2`, a stream that delivers 4 bytes and then
stalls, and a probe that parses every non-empty buffer, the second
iteration reads zero bytes while `chunk (4) > skip_at_end`, the shrink
sets `chunk := 2 ≤ skip_at_end`, so neither `break` nor raise fires, and
the loop re-parses the unchanged 4-byte buffer, appending an extra
premature `(0.0, b'')` segment; the container ends up with two
`(0.0, b'')` entries, the first of which is not last. -/
theorem claim_C3_counterexample :
    (fetch_thread_worker
        (fun i _ => if i = 0 then [1, 2, 3, 4] else [])
        (fun b => if b = [] then none else some (b.length : ℚ))
        (fun _ => false) 6 4 2).container
      = [(4, [1, 2, 3, 4]), (0, []), (0, [])] ∧
    ((fetch_thread_worker
        (fun i _ => if i = 0 then [1, 2, 3, 4] else [])
        (fun b => if b = [] then none else some (b.length : ℚ))
        (fun _ => false) 6 4 2).container.filter
      (fun p => p.2 = [])).length = 2 := by
  have h : (fetch_thread_worker
      (fun i _ => if i = 0 then [1, 2, 3, 4] else [])
      (fun b => if b = [] then none else some (b.length : ℚ))
      (fun _ => false) 6 4 2).container
      = [(4, [1, 2, 3, 4]), (0, []), (0, [])] := by
    simp +decide [fetch_thread_worker, fetchLoop, shrink]
  rw [h]
  exact ⟨rfl, by norm_num +decide⟩

/-- **C3, amended.**  Every terminating worker run still appends a
`(0.0, b'')` sentinel as its very last container element (on the normal,
tolerance, cancellation and `StreamReadException` paths alike) — but it
need not be the only empty segment: in the corner shown by the
counterexample an extra premature `(0.0, b'')` may precede it. -/
theorem claim_C3 (stream : ℕ → ℕ → ByteStr) (probe : ByteStr → Option ℚ)
    (halt : ℕ → Bool) (totalSize chunk skipAtEnd : ℕ) :
    ∃ body,
      (fetch_thread_worker stream probe halt totalSize chunk
        skipAtEnd).container = body ++ [((0 : ℚ), ([] : ByteStr))] :=
  fetchLoop_sentinel stream probe halt totalSize skipAtEnd 0
    { sizeFetched := 0, pendingData := [], fullData := [],
      lengthTillLastSegment := 0, chunk := chunk }

/-- **C4.**  When the worker drains the stream to completion (normal
outcome with all `size` bytes fetched) and the full accumulated stream is
decodable (the probe — which fails on an empty buffer, as mutagen does —
returns duration `D` on the final `full_data`), the durations of the
published non-terminal segments sum exactly to `D`: each duration is
`length_till_now - length_till_last_segment`, so the sum telescopes. -/
theorem claim_C4 (stream : ℕ → ℕ → ByteStr) (probe : ByteStr → Option ℚ)
    (halt : ℕ → Bool) (totalSize chunk skipAtEnd : ℕ) (D : ℚ)
    (hnil : probe [] = none)
    (hok : (fetch_thread_worker stream probe halt totalSize chunk
      skipAtEnd).outcome = .ok)
    (hsize : totalSize ≤ (fetch_thread_worker stream probe halt totalSize
      chunk skipAtEnd).final.sizeFetched)
    (hD : probe (fetch_thread_worker stream probe halt totalSize chunk
      skipAtEnd).final.fullData = some D) :
    ((((fetch_thread_worker stream probe halt totalSize chunk
        skipAtEnd).container.filter (fun p => p.2 ≠ [])).map Prod.fst).sum
      : ℚ) = D := by
  simp only [fetch_thread_worker] at hD ⊢
  have hinv := fetchLoop_inv stream probe halt totalSize skipAtEnd 0
    { sizeFetched := 0, pendingData := [], fullData := [],
      lengthTillLastSegment := 0, chunk := chunk }
    ⟨fun _ => Or.inl rfl, fun hne => absurd rfl hne⟩
  have htel := fetchLoop_telescope stream probe halt totalSize skipAtEnd 0
    { sizeFetched := 0, pendingData := [], fullData := [],
      lengthTillLastSegment := 0, chunk := chunk }
  rcases hinv with ⟨⟨hinv1, hinv2⟩, hzero⟩
  rcases Decidable.em ((fetchLoop stream probe halt totalSize skipAtEnd 0
      { sizeFetched := 0, pendingData := [], fullData := [],
        lengthTillLastSegment := 0, chunk := chunk }).final.pendingData = [])
    with hpend | hpend
  · rcases hinv1 hpend with hfull | hfull
    · rw [hfull, hnil] at hD
      exact Option.noConfusion hD
    · have hlen : (fetchLoop stream probe halt totalSize skipAtEnd 0
          { sizeFetched := 0, pendingData := [], fullData := [],
            lengthTillLastSegment := 0, chunk := chunk
          }).final.lengthTillLastSegment = D := by
        rw [hfull] at hD
        exact Option.some.inj hD
      rw [sum_filter_payload _ (hzero hnil), htel, hlen]
      simp
  · rw [hinv2 hpend] at hD
    exact Option.noConfusion hD

/-- **C4, witness.**  A concrete drained stream: 4 bytes in two chunks,
probe returning the byte count as duration; the published non-terminal
durations sum to the full stream's duration 4. -/
theorem claim_C4_witness :
    (fun b : ByteStr => if b = [] then none else some (b.length : ℚ)) []
      = none ∧
    (fetch_thread_worker (fun i _ => if i = 0 then [1, 2] else [3, 4])
      (fun b : ByteStr => if b = [] then none else some (b.length : ℚ))
      (fun _ => false) 4 2 0).outcome = .ok ∧
    4 ≤ (fetch_thread_worker (fun i _ => if i = 0 then [1, 2] else [3, 4])
      (fun b : ByteStr => if b = [] then none else some (b.length : ℚ))
      (fun _ => false) 4 2 0).final.sizeFetched ∧
    (fun b : ByteStr => if b = [] then none else some (b.length : ℚ))
      (fetch_thread_worker (fun i _ => if i = 0 then [1, 2] else [3, 4])
        (fun b : ByteStr => if b = [] then none else some (b.length : ℚ))
        (fun _ => false) 4 2 0).final.fullData = some 4 ∧
    ((((fetch_thread_worker (fun i _ => if i = 0 then [1, 2] else [3, 4])
        (fun b : ByteStr => if b = [] then none else some (b.length : ℚ))
        (fun _ => false) 4 2 0).container.filter
          (fun p => p.2 ≠ [])).map Prod.fst).sum : ℚ) = 4 :=
  ⟨by simp, by simp +decide [fetch_thread_worker, fetchLoop, shrink],
    by simp +decide [fetch_thread_worker, fetchLoop, shrink],
    by simp +decide [fetch_thread_worker, fetchLoop, shrink],
    claim_C4 (fun i _ => if i = 0 then [1, 2] else [3, 4])
      (fun b : ByteStr => if b = [] then none else some (b.length : ℚ))
      (fun _ => false) 4 2 0 4 (by simp)
      (by simp +decide [fetch_thread_worker, fetchLoop, shrink])
      (by simp +decide [fetch_thread_worker, fetchLoop, shrink])
      (by simp +decide [fetch_thread_worker, fetchLoop, shrink])⟩

/-- **C7** (claim is right, code is wrong).  The worker's chunk shrink
(lines 370-371) uses `size_fetched` *before* it is updated with the current
read (line 378), so it lags one iteration: with `total_size = 10` and
`chunk = 6` on a stream that serves full chunks, the shrink does not fire
before the second read, which therefore requests 6 bytes although only
`10 - 6 = 4` remain — a read past the declared stream size, contradicting
the claim that the final read requests exactly the remaining byte count.
(Compare `get_media`, whose shrink at line 273 uses the already-updated
`len(raw_media)` and requests exactly the remainder.) -/
theorem claim_C7 :
    (fetch_thread_worker
        (fun i _ => if i = 0 then [1, 1, 1, 1, 1, 1] else [2, 2, 2, 2])
        (fun _ => none) (fun _ => false) 10 6 2).requests = [6, 6] ∧
    (fetch_thread_worker
        (fun i _ => if i = 0 then [1, 1, 1, 1, 1, 1] else [2, 2, 2, 2])
        (fun _ => none) (fun _ => false) 10 6 2).final.sizeFetched = 10 ∧
    10 - 6 ≠ 6 := by
  have h : fetch_thread_worker
      (fun i _ => if i = 0 then [1, 1, 1, 1, 1, 1] else [2, 2, 2, 2])
      (fun _ => none) (fun _ => false) 10 6 2
      = { container := [(0, [])], requests := [6, 6], outcome := .ok,
          final := { sizeFetched := 10,
                     pendingData := [1, 1, 1, 1, 1, 1, 2, 2, 2, 2],
                     fullData := [1, 1, 1, 1, 1, 1, 2, 2, 2, 2],
                     lengthTillLastSegment := 0, chunk := 4 } } := by
    simp +decide [fetch_thread_worker, fetchLoop, shrink]
  rw [h]
  exact ⟨rfl, rfl, by norm_num⟩

/-- **C9.**  Bytes read after the last successful duration parse are
silently dropped: on every worker run, `full_data` (all bytes ever read)
is exactly the concatenation of the published payloads followed by the
final `pending_data`, so the final pending bytes appear in no published
segment; and every payload the Scheduler ever writes downstream is one of
the published container payloads, so pending bytes are never written. -/
theorem claim_C9 (stream : ℕ → ℕ → ByteStr) (probe : ByteStr → Option ℚ)
    (halt : ℕ → Bool) (totalSize chunk skipAtEnd : ℕ) :
    (fetch_thread_worker stream probe halt totalSize chunk
        skipAtEnd).final.fullData
      = ((fetch_thread_worker stream probe halt totalSize chunk
          skipAtEnd).container.map Prod.snd).flatten
        ++ (fetch_thread_worker stream probe halt totalSize chunk
            skipAtEnd).final.pendingData ∧
    ∀ (clock : ℕ → ℚ) (writeFails : ℕ → Bool) (fuel : ℕ) (s : SchedRun),
      play_scheduler clock writeFails fuel
        (fetch_thread_worker stream probe halt totalSize chunk
          skipAtEnd).container = some s →
      ∀ b ∈ s.written,
        b ∈ (fetch_thread_worker stream probe halt totalSize chunk
          skipAtEnd).container.map Prod.snd := by
  constructor
  · have h := fetchLoop_flatten stream probe halt totalSize skipAtEnd 0
      { sizeFetched := 0, pendingData := [], fullData := [],
        lengthTillLastSegment := 0, chunk := chunk } [] (by simp)
    simpa [fetch_thread_worker] using h
  · intro clock writeFails fuel s hs b hb
    simp only [play_scheduler] at hs
    rcases schedLoop_written clock writeFails fuel _ s hs b hb with h | h
    · simp at h
    · exact h

/-- **C9, witness.**  A stream whose bytes never parse: all 4 bytes stay in
`pending_data`, the container carries only the sentinel, and a scheduler
run over that container writes nothing. -/
theorem claim_C9_witness :
    (fetch_thread_worker (fun i _ => if i = 0 then [1, 2] else [3, 4])
      (fun _ => none) (fun _ => false) 4 2 1).final.pendingData
      = [1, 2, 3, 4] ∧
    play_scheduler (fun _ => 0) (fun _ => false) 2
      (fetch_thread_worker (fun i _ => if i = 0 then [1, 2] else [3, 4])
        (fun _ => none) (fun _ => false) 4 2 1).container
      = some { outcome := .complete, est := 0, written := [],
               flagWrites := [], resetCalled := true } ∧
    (fetch_thread_worker (fun i _ => if i = 0 then [1, 2] else [3, 4])
        (fun _ => none) (fun _ => false) 4 2 1).final.fullData
      = ((fetch_thread_worker (fun i _ => if i = 0 then [1, 2] else [3, 4])
          (fun _ => none) (fun _ => false) 4 2 1).container.map
            Prod.snd).flatten
        ++ (fetch_thread_worker (fun i _ => if i = 0 then [1, 2] else [3, 4])
            (fun _ => none) (fun _ => false) 4 2 1).final.pendingData ∧
    ∀ b ∈ (SchedRun.mk .complete 0 [] [] true).written,
      b ∈ (fetch_thread_worker (fun i _ => if i = 0 then [1, 2] else [3, 4])
        (fun _ => none) (fun _ => false) 4 2 1).container.map Prod.snd := by
  have hc : (fetch_thread_worker (fun i _ => if i = 0 then [1, 2] else [3, 4])
      (fun _ => none) (fun _ => false) 4 2 1).container = [(0, [])] := by
    simp +decide [fetch_thread_worker, fetchLoop, shrink]
  have hsched : play_scheduler (fun _ => 0) (fun _ => false) 2
      (fetch_thread_worker (fun i _ => if i = 0 then [1, 2] else [3, 4])
        (fun _ => none) (fun _ => false) 4 2 1).container
      = some { outcome := .complete, est := 0, written := [],
               flagWrites := [], resetCalled := true } := by
    rw [hc]; decide
  refine ⟨?_, hsched,
    (claim_C9 (fun i _ => if i = 0 then [1, 2] else [3, 4])
      (fun _ => none) (fun _ => false) 4 2 1).1,
    fun b hb =>
      (claim_C9 (fun i _ => if i = 0 then [1, 2] else [3, 4])
        (fun _ => none) (fun _ => false) 4 2 1).2
        (fun _ => 0) (fun _ => false) 2 _ hsched b hb⟩
  simp +decide [fetch_thread_worker, fetchLoop, shrink]

/-- **C8.**  (i) Every read the worker issues was preceded by a
loop-condition check that observed the cancellation flag `false` — so once
the flag is observed `true`, no further reads are issued by that worker
run.  (ii) Every value the Scheduler ever passes to `stop_marker.set`
during a session is `true` (the watchdog of line 421 and the interrupt
handler of line 445 both pass the literal `True`).  (iii) Consequently a
`MutableBool` that is `true` stays `true` under any such write sequence:
the flag is never reset within a session. -/
theorem claim_C8 :
    (∀ (stream : ℕ → ℕ → ByteStr) (probe : ByteStr → Option ℚ)
        (halt : ℕ → Bool) (totalSize chunk skipAtEnd j : ℕ),
      j < (fetch_thread_worker stream probe halt totalSize chunk
        skipAtEnd).requests.length →
      halt j = false) ∧
    (∀ (clock : ℕ → ℚ) (writeFails : ℕ → Bool) (fuel : ℕ)
        (container : List (ℚ × ByteStr)) (r : SchedRun),
      play_scheduler clock writeFails fuel container = some r →
      ∀ b ∈ r.flagWrites, b = true) ∧
    (∀ (m : MutableBool) (l : List Bool),
      (∀ b ∈ l, b = true) → m.value = true →
      (l.foldl MutableBool.set m).value = true) := by
  refine ⟨?_, ?_, ?_⟩
  · intro stream probe halt totalSize chunk skipAtEnd j hj
    have h := fetchLoop_reads_halt stream probe halt totalSize skipAtEnd 0
      { sizeFetched := 0, pendingData := [], fullData := [],
        lengthTillLastSegment := 0, chunk := chunk } j
      (by simpa [fetch_thread_worker] using hj)
    simpa using h
  · intro clock writeFails fuel container r h
    simp only [play_scheduler] at h
    exact schedLoop_flags clock writeFails fuel _ r h (by simp)
  · intro m l
    induction l generalizing m with
    | nil => intro _ hm; exact hm
    | cons a t ih =>
      intro hl _
      simp only [List.foldl_cons]
      refine ih (MutableBool.set m a)
        (fun b hb => hl b (List.mem_cons_of_mem a hb)) ?_
      have ha : a = true := hl a (List.mem_cons_self a t)
      simp [MutableBool.set, ha]

/-- **C8, witness.**  Concrete instances: a one-read worker run whose single
read was preceded by a `false` flag observation; a scheduler run whose flag
writes are all `true`; a pre-set flag that stays `true` after a write of
`true`. -/
theorem claim_C8_witness :
    (fun _ : ℕ => false) 0 = false ∧
    (∀ b ∈ (SchedRun.mk .complete 1 [] [] true).flagWrites, b = true) ∧
    (([true].foldl MutableBool.set ⟨true⟩).value = true) := by
  refine ⟨?_, ?_, ?_⟩
  · exact claim_C8.1 (fun _ _ => [5]) (fun _ => none) (fun _ => false) 1 1 0 0
      (by simp +decide [fetch_thread_worker, fetchLoop, shrink])
  · exact claim_C8.2.1 (fun _ => 1) (fun _ => false) 2 [(0, [])] _ (by decide)
  · exact claim_C8.2.2 ⟨true⟩ [true] (by simp) rfl

/-- **C1** (claim is right, code is wrong).  The worker publishes the
sentinel and raises `StreamReadException` — but it raises on its own daemon
thread, and `play` has no error slot: the Scheduler pops the sentinel,
breaks out of its loop normally, runs the lines 448-460 epilogue and
returns without error.  Concretely: a 10-byte stream that delivers 5 bytes
and then breaks (remaining `5 >` tolerance `2`) makes the worker run end in
`StreamReadException` with container `[(5, payload), (0.0, b'')]`, yet the
Scheduler invocation over that container ends as a normal, successful
completion (`complete`, no error surfaced), contradicting "the session
outcome is FAILED, never COMPLETE". -/
theorem claim_C1 :
    (fetch_thread_worker (fun i _ => if i = 0 then [7, 7, 7, 7, 7] else [])
        (fun b => if b = [] then none else some (b.length : ℚ))
        (fun _ => false) 10 5 2).outcome = .streamReadError ∧
    (fetch_thread_worker (fun i _ => if i = 0 then [7, 7, 7, 7, 7] else [])
        (fun b => if b = [] then none else some (b.length : ℚ))
        (fun _ => false) 10 5 2).container
      = [(5, [7, 7, 7, 7, 7]), (0, [])] ∧
    play_scheduler (fun _ => 0) (fun _ => false) 3
        (fetch_thread_worker (fun i _ => if i = 0 then [7, 7, 7, 7, 7]
            else [])
          (fun b => if b = [] then none else some (b.length : ℚ))
          (fun _ => false) 10 5 2).container
      = some { outcome := .complete, est := 5, written := [[7, 7, 7, 7, 7]],
               flagWrites := [], resetCalled := true } := by
  have h : fetch_thread_worker
      (fun i _ => if i = 0 then [7, 7, 7, 7, 7] else [])
      (fun b => if b = [] then none else some (b.length : ℚ))
      (fun _ => false) 10 5 2
      = { container := [(5, [7, 7, 7, 7, 7]), (0, [])], requests := [5, 5],
          outcome := .streamReadError,
          final := { sizeFetched := 5, pendingData := [],
                     fullData := [7, 7, 7, 7, 7], lengthTillLastSegment := 5,
                     chunk := 5 } } := by
    simp +decide [fetch_thread_worker, fetchLoop, shrink]
  rw [h]
  refine ⟨rfl, rfl, ?_⟩
  simp +decide [play_scheduler, schedLoop, schedStep, schedMid, lagAdjust]
  norm_num

/-- **C2, counterexample.**  On the stall-watchdog path the claim fails:
with an empty queue and a clock that jumps from 0 to 20 seconds, the
watchdog fires (`int(20) - 0 > 15`), `RuntimeError` is raised out of the
loop and propagates past lines 448-460, so the `reset_stream()` of line 460
is never reached: the run ends `failedStall` with `resetCalled = false`. -/
theorem claim_C2_counterexample :
    play_scheduler (fun n => if n = 0 then 0 else 20) (fun _ => false) 1 []
      = some { outcome := .failedStall, est := 0, written := [],
               flagWrites := [true], resetCalled := false } ∧
    Option.map SchedRun.resetCalled
      (play_scheduler (fun n => if n = 0 then 0 else 20) (fun _ => false)
        1 []) ≠ some true := by
  exact ⟨by decide, by decide⟩

/-- **C2, amended.**  The MediaStream handle is invalidated
(`reset_stream`, line 460) before the Scheduler invocation returns on the
COMPLETE and CANCELLED outcomes — but *not* on the stall-watchdog FAILED
path, whose `RuntimeError` propagates before line 460 is reached. -/
theorem claim_C2 (clock : ℕ → ℚ) (writeFails : ℕ → Bool) (fuel : ℕ)
    (container : List (ℚ × ByteStr)) (r : SchedRun)
    (h : play_scheduler clock writeFails fuel container = some r) :
    (r.outcome = .complete ∨ r.outcome = .cancelled →
      r.resetCalled = true) ∧
    (r.outcome = .failedStall → r.resetCalled = false) := by
  simp only [play_scheduler] at h
  exact schedLoop_reset clock writeFails fuel _ r h

/-- **C2, witness.**  A concrete CANCELLED run (a broken pipe on the first
write): the amended theorem applies and yields `resetCalled = true`. -/
theorem claim_C2_witness :
    play_scheduler (fun _ => 0) (fun _ => true) 2 [(1, [9]), (0, [])]
      = some (SchedRun.mk .cancelled 1 [] [true] true) ∧
    (((SchedRun.mk .cancelled 1 [] [true] true).outcome = .complete ∨
      (SchedRun.mk .cancelled 1 [] [true] true).outcome = .cancelled →
      (SchedRun.mk .cancelled 1 [] [true] true).resetCalled = true) ∧
     ((SchedRun.mk .cancelled 1 [] [true] true).outcome = .failedStall →
      (SchedRun.mk .cancelled 1 [] [true] true).resetCalled = false)) :=
  ⟨by simp +decide [play_scheduler, schedLoop, schedStep, schedMid, lagAdjust],
    claim_C2 (fun _ => 0) (fun _ => true) 2 [(1, [9]), (0, [])] _
      (by simp +decide [play_scheduler, schedLoop, schedStep, schedMid,
        lagAdjust])⟩

/-- **C6, counterexample.**  A segment arriving 200 ms after
`next_frame_critical_time` (with deadline at t = 10 s) extends
`estimated_playback_end_on` by the full 200 ms, not by 170 ms: the code of
line 428 adds `time.time() - next_frame_critical_time`, with no slack
subtraction. -/
theorem claim_C6_counterexample :
    lagAdjust 10 100 (10 + 1 / 5) (10 + 1 / 5) = 100 + 1 / 5 ∧
    (100 + 1 / 5 : ℚ) ≠ 100 + 17 / 100 := by
  constructor
  · norm_num [lagAdjust]
  · norm_num

/-- **C6, amended.**  When a non-first segment (deadline set, i.e.
`next_frame_critical_time ≠ 0`) is observed more than the 30 ms slack past
its deadline, `estimated_playback_end_on` is extended by the *full* overrun
`time.time() - next_frame_critical_time` (≈200 ms for a 200 ms late
arrival) — playback end drifts forward instead of the Scheduler catching
up by skipping wait time. -/
theorem claim_C6 (critical est tCond tInc : ℚ) (h1 : critical ≠ 0)
    (h2 : critical + 3 / 100 < tCond) :
    lagAdjust critical est tCond tInc = est + (tInc - critical) := by
  unfold lagAdjust
  rw [if_pos ⟨h1, h2⟩]

/-- **C6, witness.**  The amended theorem at the 200 ms-late instance. -/
theorem claim_C6_witness :
    (10 : ℚ) ≠ 0 ∧ (10 : ℚ) + 3 / 100 < 10 + 1 / 5 ∧
    lagAdjust 10 100 (10 + 1 / 5) (10 + 1 / 5) = 100 + ((10 + 1 / 5) - 10) :=
  ⟨by norm_num, by norm_num,
    claim_C6 10 100 (10 + 1 / 5) (10 + 1 / 5) (by norm_num) (by norm_num)⟩

/-- **C5, counterexample.**  The raise/complete decision of `get_media`
compares the *chunk size* against the tolerance, not the remaining byte
count: with `chunk_size = 100 ≤ 167` and a stream that returns zero bytes
immediately, the fetch "completes successfully" with 1000 unread bytes —
far more than the 167-byte tolerance — and no `StreamReadException`,
refuting the claimed biconditional. -/
theorem claim_C5_counterexample :
    (get_media (fun _ _ => []) (fun _ => []) "m" 1000 100 167).outcome
      = .ok ∧
    167 < 1000 -
      (get_media (fun _ _ => []) (fun _ => []) "m" 1000 100 167).raw.length
      := by
  have h : get_media (fun _ _ => []) (fun _ => []) "m" 1000 100 167
      = { outcome := .ok, raw := [],
          pgEvents := [(0, 1000, "Downloading")], resetCalled := true,
          stopAtExit := [], finalStop := [] } := by
    simp +decide [get_media, getMediaLoop, getMediaExit, shrink]
  rw [h]
  exact ⟨rfl, by norm_num⟩

/-- **C5, amended.**  Provided the caller's `chunk_size` exceeds the
tolerance (true for the defaults 50000 and 167; the loop only ever shrinks
the chunk to a remaining-byte count) and no cancellation is requested:
a `get_media` run that returns normally has at most `skip_at_end_bytes`
unread bytes, a run that raises `StreamReadException` has more than
`skip_at_end_bytes` unread bytes and has invalidated the stream
(`reset_stream`) before raising, and no interruption is reported.
With `chunk_size ≤` tolerance, a zero-length read ends the fetch
successfully regardless of the remaining count (see counterexample). -/
theorem claim_C5 (streamG : ℕ → ℕ → ByteStr) (stops : ℕ → List String)
    (mid : String) (totalSize chunk skipAtEnd : ℕ)
    (hc : skipAtEnd < chunk) (hnc : ∀ j, mid ∉ stops j) :
    ((get_media streamG stops mid totalSize chunk skipAtEnd).outcome = .ok →
      totalSize -
        (get_media streamG stops mid totalSize chunk skipAtEnd).raw.length
        ≤ skipAtEnd) ∧
    ((get_media streamG stops mid totalSize chunk skipAtEnd).outcome
        = .streamReadErr →
      skipAtEnd < totalSize -
        (get_media streamG stops mid totalSize chunk skipAtEnd).raw.length ∧
      (get_media streamG stops mid totalSize chunk skipAtEnd).resetCalled
        = true) ∧
    (get_media streamG stops mid totalSize chunk skipAtEnd).outcome
      ≠ .interrupted := by
  simp only [get_media]
  exact getMediaLoop_tolerance streamG stops mid totalSize skipAtEnd chunk
    hc hnc 0 chunk [] [] (Or.inl rfl)

/-- **C5, witness.**  A 5-byte stream fetched in full with `chunk = 3 >`
tolerance `1`: the amended characterisation applies. -/
theorem claim_C5_witness :
    1 < 3 ∧ "m" ∉ ([] : List String) ∧
    (((get_media (fun i _ => if i = 0 then [1, 2, 3] else [4, 5])
        (fun _ => []) "m" 5 3 1).outcome = .ok →
      5 - (get_media (fun i _ => if i = 0 then [1, 2, 3] else [4, 5])
        (fun _ => []) "m" 5 3 1).raw.length ≤ 1) ∧
    ((get_media (fun i _ => if i = 0 then [1, 2, 3] else [4, 5])
        (fun _ => []) "m" 5 3 1).outcome = .streamReadErr →
      1 < 5 - (get_media (fun i _ => if i = 0 then [1, 2, 3] else [4, 5])
        (fun _ => []) "m" 5 3 1).raw.length ∧
      (get_media (fun i _ => if i = 0 then [1, 2, 3] else [4, 5])
        (fun _ => []) "m" 5 3 1).resetCalled = true) ∧
    (get_media (fun i _ => if i = 0 then [1, 2, 3] else [4, 5])
      (fun _ => []) "m" 5 3 1).outcome ≠ .interrupted) :=
  ⟨by norm_num, by simp,
    claim_C5 (fun i _ => if i = 0 then [1, 2, 3] else [4, 5]) (fun _ => [])
      "m" 5 3 1 (by norm_num) (fun j => by simp)⟩

/-- **C10.**  Cancellation takes precedence over completion in `get_media`:
whenever the post-loop check of line 282 observes the media id in the stop
list — even after all `size` bytes were successfully read — the run raises
`MediaFetchInterruptedException` (the fetched bytes are discarded, since
the call raises instead of returning them) and the triggering id has been
popped (first occurrence removed) from the shared list before raising. -/
theorem claim_C10 (streamG : ℕ → ℕ → ByteStr) (stops : ℕ → List String)
    (mid : String) (totalSize chunk skipAtEnd : ℕ)
    (h : mid ∈ (get_media streamG stops mid totalSize chunk
      skipAtEnd).stopAtExit) :
    (get_media streamG stops mid totalSize chunk skipAtEnd).outcome
      = .interrupted ∧
    (get_media streamG stops mid totalSize chunk skipAtEnd).finalStop
      = (get_media streamG stops mid totalSize chunk
          skipAtEnd).stopAtExit.erase mid := by
  simp only [get_media] at h ⊢
  exact getMediaLoop_stop streamG stops mid totalSize skipAtEnd 0 chunk [] []
    h

/-- **C10, witness.**  A 2-byte stream fully read on the first iteration;
the id "m" is added to the stop list after the read, so the loop exits with
all bytes fetched and the post-loop check still raises
`MediaFetchInterruptedException` and pops the id. -/
theorem claim_C10_witness :
    "m" ∈ (get_media (fun i _ => if i = 0 then [7, 7] else [])
      (fun i => if i = 0 then [] else ["m"]) "m" 2 5 1).stopAtExit ∧
    (get_media (fun i _ => if i = 0 then [7, 7] else [])
      (fun i => if i = 0 then [] else ["m"]) "m" 2 5 1).raw.length = 2 ∧
    ((get_media (fun i _ => if i = 0 then [7, 7] else [])
        (fun i => if i = 0 then [] else ["m"]) "m" 2 5 1).outcome
      = .interrupted ∧
    (get_media (fun i _ => if i = 0 then [7, 7] else [])
        (fun i => if i = 0 then [] else ["m"]) "m" 2 5 1).finalStop
      = (get_media (fun i _ => if i = 0 then [7, 7] else [])
          (fun i => if i = 0 then [] else ["m"]) "m" 2 5
            1).stopAtExit.erase "m") := by
  have h : get_media (fun i _ => if i = 0 then [7, 7] else [])
      (fun i => if i = 0 then [] else ["m"]) "m" 2 5 1
      = { outcome := .interrupted, raw := [7, 7],
          pgEvents := [(2, 2, "Downloading"), (0, 1, "Cancelled")],
          resetCalled := true, stopAtExit := ["m"], finalStop := [] } := by
    simp +decide [get_media, getMediaLoop, getMediaExit, shrink]
  refine ⟨by rw [h]; decide, by rw [h]; rfl, ?_⟩
  exact claim_C10 (fun i _ => if i = 0 then [7, 7] else [])
    (fun i => if i = 0 then [] else ["m"]) "m" 2 5 1 (by rw [h]; decide)
